import Mathlib

/-!
Verification of the conjur-rss-feed scraping and feed-generation pipeline
(`src/main.py`), as a shallow embedding in Lean 4.

Modelling conventions:
* Python machine integers are `Nat`/`Int` (all arithmetic here is small and
  overflow-free).
* Fallible Python code is embedded as `PyOutcome`: an uncaught exception is
  `PyOutcome.raised msg`, a normal return is `PyOutcome.ok`.
* `datetime | None`, `str | None` and friends become `Option`.
* Python `set` objects are modelled as `List String` (only membership is used).
* Python `dict` objects are modelled as association lists in insertion order,
  with the CPython update rule (re-assigning an existing key keeps its
  position and overwrites its value).
* The BeautifulSoup HTML tree is modelled by the inductive `Node`; CSS
  selection (`select` / `select_one`) is a predicate filter over the
  document-order (preorder) descendant list.
* The string-to-tree HTML parse performed by `BeautifulSoup(html, "lxml")`
  is an external library boundary: `scrape_tag` is therefore parameterised
  over the two page-analysis functions it composes with the fetched page
  text, and theorems about it quantify over those functions.
* `feedgen.FeedGenerator.add_entry()` inserts the new entry at the *front*
  of the generator's entry list (its `order` parameter defaults to
  `'prepend'`), and `rss_file` serialises entries in list order; the
  repository's own `tests/test_feed_ordering.py` pins this emitted order
  down (first emitted `<item>` is the first article of the input list).
  The model's feed builders fold with list-cons accordingly.
-/

/-- Outcome of running a piece of Python code: a returned value, or an
uncaught exception carrying its message. -/
inductive PyOutcome (α : Type) where
  | ok (val : α)
  | raised (msg : String)
deriving DecidableEq, Repr

/-- Python `datetime.datetime` value as constructed by `parse_pt_date`:
`datetime(year, month, day, hour, minute, tzinfo=UTC)`. Every instance is a
UTC wall-clock timestamp (the `tzUtc` field records the `tzinfo=UTC`
argument; no timezone conversion is ever applied). -/
structure PyDateTime where
  year : Nat
  month : Nat
  day : Nat
  hour : Nat
  minute : Nat
  tzUtc : Bool
deriving DecidableEq, Repr

/-- Article record (`@dataclass Article` in `src/main.py`). -/
structure Article where
  title : String
  url : String
  authors : List String
  category : String
  published : Option PyDateTime := none
  image_url : Option String := none
deriving DecidableEq, Repr

/-- Lexicon `MONTHS_PT` mapping lowercase Portuguese month names to month
numbers. -/
def MONTHS_PT : List (String × Nat) :=
  [("janeiro", 1), ("fevereiro", 2), ("março", 3), ("abril", 4),
   ("maio", 5), ("junho", 6), ("julho", 7), ("agosto", 8),
   ("setembro", 9), ("outubro", 10), ("novembro", 11), ("dezembro", 12)]

/-- Python `\d` on the inputs of interest: an ASCII decimal digit. -/
def isPyDigit (c : Char) : Bool := c.isDigit

/-- Python `\s`: ASCII whitespace (space, tab, newline, carriage return,
vertical tab, form feed). Unicode whitespace beyond ASCII is not modelled. -/
def isPySpace (c : Char) : Bool :=
  c = ' ' || c = '\t' || c = '\n' || c = '\r' || c = '\x0b' || c = '\x0c'

/-- Python `\w`: ASCII alphanumerics, underscore, and (as an adequate model
for the Portuguese month alphabet) any non-ASCII character. -/
def isPyWord (c : Char) : Bool :=
  c.isAlphanum || c = '_' || c.toNat ≥ 128

/-- Python `str.lower` restricted to ASCII and Latin-1 letters (covers every
character that can occur in a month name of the lexicon, in particular
`Ç → ç`). -/
def pyLowerChar (c : Char) : Char :=
  if c.toNat ≥ 65 && c.toNat ≤ 90 then Char.ofNat (c.toNat + 32)
  else if c.toNat ≥ 0xC0 && c.toNat ≤ 0xDE && c.toNat ≠ 0xD7 then Char.ofNat (c.toNat + 32)
  else c

/-- Python `str.lower` over a whole string (see `pyLowerChar`). -/
def pyLower (s : String) : String := String.mk (s.data.map pyLowerChar)

/-- Python `str.upper` restricted to ASCII and Latin-1 letters (inverse
direction of `pyLowerChar`; the one-to-many case `ß → SS` is not modelled,
tags are ASCII slugs). -/
def pyUpperChar (c : Char) : Char :=
  if c.toNat ≥ 97 && c.toNat ≤ 122 then Char.ofNat (c.toNat - 32)
  else if c.toNat ≥ 0xE0 && c.toNat ≤ 0xFE && c.toNat ≠ 0xF7 then Char.ofNat (c.toNat - 32)
  else c

/-- Python `str.upper` over a whole string (see `pyUpperChar`). -/
def pyUpper (s : String) : String := String.mk (s.data.map pyUpperChar)

/-- Numeric value of a digit run (the groups fed to Python `int(...)` inside
`parse_pt_date` consist of ASCII digits only, by construction of the
pattern). -/
def digitsToNat (cs : List Char) : Nat :=
  cs.foldl (fun n c => 10 * n + (c.toNat - 48)) 0

/-- Python `str.strip()` (also the stripping done by BeautifulSoup
`get_text(strip=True)`): drop whitespace from both ends. -/
def pyStrip (s : String) : String :=
  String.mk (((s.data.dropWhile isPySpace).reverse.dropWhile isPySpace).reverse)

/-- Captured groups of the date pattern
`(\d{1,2})\s+de\s+(\w+)\s+de\s+(\d{4})\s+às\s+(\d{2}):(\d{2})`. -/
structure DateGroups where
  day : List Char
  monthName : List Char
  year : List Char
  hour : List Char
  minute : List Char
deriving DecidableEq, Repr

/-- Attempt to match the date pattern anchored at the start of `cs`.

The pattern's only backtracking choice in the Python engine is the length of
the leading `\d{1,2}` group, and it is resolved by the character that follows
the digit run (every other quantified piece is a greedy run over a character
class that is disjoint from what must follow it, so its extent is forced).
The anchored match is therefore deterministic:
* the leading digit run must have length 1 or 2 (a longer run can never be
  followed by the mandatory whitespace, for either choice of group length);
* each `\s+` is the maximal whitespace run (length ≥ 1);
* `(\w+)` is the maximal word-character run (length ≥ 1);
* `(\d{4})` is a digit run of exactly 4 (a 5th digit would make the
  following `\s+` fail);
* `(\d{2}):` is a digit run of exactly 2 followed by a colon;
* the final `(\d{2})` takes two digits off a run of length ≥ 2 (nothing
  constrains what follows). -/
def matchDateAt (cs : List Char) : Option DateGroups :=
  let (d, r1) := cs.span isPyDigit
  if d.length = 0 || d.length > 2 then none else
  let (s1, r2) := r1.span isPySpace
  if s1.length = 0 then none else
  match r2 with
  | 'd' :: 'e' :: r3 =>
    let (s2, r4) := r3.span isPySpace
    if s2.length = 0 then none else
    let (w, r5) := r4.span isPyWord
    if w.length = 0 then none else
    let (s3, r6) := r5.span isPySpace
    if s3.length = 0 then none else
    match r6 with
    | 'd' :: 'e' :: r7 =>
      let (s4, r8) := r7.span isPySpace
      if s4.length = 0 then none else
      let (y, r9) := r8.span isPyDigit
      if y.length ≠ 4 then none else
      let (s5, r10) := r9.span isPySpace
      if s5.length = 0 then none else
      match r10 with
      | 'à' :: 's' :: r11 =>
        let (s6, r12) := r11.span isPySpace
        if s6.length = 0 then none else
        let (h, r13) := r12.span isPyDigit
        if h.length ≠ 2 then none else
        match r13 with
        | ':' :: r14 =>
          let (m, _) := r14.span isPyDigit
          if m.length < 2 then none else
          some ⟨d, w, y, h, m.take 2⟩
        | _ => none
      | _ => none
    | _ => none
  | _ => none

/-- Python `re.search` for the date pattern: try the anchored match at every
start position, leftmost success wins. -/
def reSearchDate : List Char → Option DateGroups
  | [] => matchDateAt []
  | c :: rest =>
    match matchDateAt (c :: rest) with
    | some g => some g
    | none => reSearchDate rest

/-- Number of days in a month, with the Gregorian leap rule, exactly as
enforced by the CPython `datetime` constructor. -/
def daysInMonth (year month : Nat) : Nat :=
  if month = 2 then
    if year % 4 = 0 && (year % 100 ≠ 0 || year % 400 = 0) then 29 else 28
  else if month = 4 || month = 6 || month = 9 || month = 11 then 30
  else 31

/-- Python `datetime(year, month, day, hour, minute, tzinfo=UTC)`: validates
each component (raising `ValueError` on an out-of-range one, like CPython)
and otherwise constructs the UTC wall-clock timestamp. -/
def datetimeUTC (year month day hour minute : Nat) : PyOutcome PyDateTime :=
  if year < 1 || year > 9999 then .raised "year is out of range" else
  if month < 1 || month > 12 then .raised "month must be in 1..12" else
  if day < 1 || day > daysInMonth year month then .raised "day is out of range for month" else
  if hour > 23 then .raised "hour must be in 0..23" else
  if minute > 59 then .raised "minute must be in 0..59" else
  .ok ⟨year, month, day, hour, minute, true⟩

/-- Embedding of `parse_pt_date` (`src/main.py:49-60`): search for the
pattern, return `None` when there is no match or the (lower-cased) month
name is not in `MONTHS_PT`, otherwise construct the `datetime`. The
`datetime` construction is outside any exception handler, so a `ValueError`
it raises propagates out of the function. -/
def parse_pt_date (text : String) : PyOutcome (Option PyDateTime) :=
  match reSearchDate text.data with
  | none => .ok none
  | some g =>
    match MONTHS_PT.lookup (pyLower (String.mk g.monthName)) with
    | none => .ok none
    | some month =>
      match datetimeUTC (digitsToNat g.year) month (digitsToNat g.day)
          (digitsToNat g.hour) (digitsToNat g.minute) with
      | .ok dt => .ok (some dt)
      | .raised msg => .raised msg

/-- Parsed HTML tree (the result of `BeautifulSoup(html, "lxml")`): an
element with its tag name, its `class` attribute values and its children, or
a text node. Attributes other than `class` are irrelevant to the modelled
functions and omitted. -/
inductive Node where
  | elem (tag : String) (classes : List String) (children : List Node)
  | text (s : String)
deriving Repr

mutual

/-- Strict descendants of a node in document (preorder) order, mirroring the
traversal underlying BeautifulSoup `select`: CSS selection examines every
element below the root. -/
def nodeDescendants : Node → List Node
  | .text _ => []
  | .elem _ _ children => listDescendants children

/-- Descendant traversal over a child list, each child followed by its own
descendants. -/
def listDescendants : List Node → List Node
  | [] => []
  | n :: rest => n :: (nodeDescendants n ++ listDescendants rest)

end

mutual

/-- BeautifulSoup `get_text(strip=True)`: the concatenation of all text
descendants, each stripped of surrounding whitespace (empty fragments
contribute nothing to the concatenation). -/
def nodeTextStrip : Node → String
  | .text s => pyStrip s
  | .elem _ _ children => listTextStrip children

/-- Text accumulation over a child list in document order. -/
def listTextStrip : List Node → String
  | [] => ""
  | n :: rest => nodeTextStrip n ++ listTextStrip rest

end

/-- Whether a node is an element with the given tag name. -/
def isTag (n : Node) (t : String) : Bool :=
  match n with
  | .elem tag _ _ => tag = t
  | .text _ => false

/-- Whether a node is an element carrying the given class value. -/
def hasClass (n : Node) (c : String) : Bool :=
  match n with
  | .elem _ classes _ => classes.contains c
  | .text _ => false

/-- Helper of the Python `int(...)` model: value of a digit/underscore run
after the leading digit, rejecting misplaced underscores (an underscore must
sit between two digits, as CPython demands). -/
def pyIntDigitsGo : Nat → List Char → Option Nat
  | acc, [] => some acc
  | acc, '_' :: c :: rest =>
    if c.isDigit then pyIntDigitsGo (10 * acc + (c.toNat - 48)) rest else none
  | acc, c :: rest =>
    if c.isDigit then pyIntDigitsGo (10 * acc + (c.toNat - 48)) rest else none

/-- Magnitude part of Python `int(...)`: a non-empty ASCII digit run with
optional single underscores between digits. -/
def pyIntDigits : List Char → Option Nat
  | [] => none
  | c :: rest => if c.isDigit then pyIntDigitsGo (c.toNat - 48) rest else none

/-- Python `int(str)` for decimal string literals: surrounding whitespace
stripped, an optional sign, then digits (underscore separators allowed);
anything else raises `ValueError`, modelled as `none`. Non-ASCII decimal
digits are not modelled. -/
def pyInt (s : String) : Option Int :=
  match (pyStrip s).data with
  | '+' :: rest => (pyIntDigits rest).map Int.ofNat
  | '-' :: rest => (pyIntDigits rest).map (fun n => -(n : Int))
  | cs => (pyIntDigits cs).map Int.ofNat

/-- Selector `nav.pagination` applied by `soup.select_one`: the first
element in document order with tag `nav` and class `pagination`. -/
def findPagination (doc : Node) : Option Node :=
  (nodeDescendants doc).find? (fun n => isTag n "nav" && hasClass n "pagination")

/-- Selector `a.page-numbers:not(.next)` applied below the pagination
element: every descendant anchor with class `page-numbers` and without class
`next`, in document order. -/
def pageNumberLinks (pagination : Node) : List Node :=
  (nodeDescendants pagination).filter
    (fun n => isTag n "a" && hasClass n "page-numbers" && !hasClass n "next")

/-- Labels of the page-number links that parse as integers (the `int(...)`
call inside the loop, with its `ValueError` handler skipping the label). -/
def parsedPageNumbers (pagination : Node) : List Int :=
  (pageNumberLinks pagination).filterMap (fun l => pyInt (nodeTextStrip l))

/-- Embedding of `get_total_pages_from_html` (`src/main.py:139-153`): find
the pagination nav (absent → 1), then fold the page-number links, replacing
the running maximum (initially 1) whenever a label parses to something
larger. -/
def get_total_pages_from_html (doc : Node) : Int :=
  match findPagination doc with
  | none => 1
  | some pagination =>
    (pageNumberLinks pagination).foldl
      (fun max_page l =>
        match pyInt (nodeTextStrip l) with
        | some num => if num > max_page then num else max_page
        | none => max_page)
      1

/-- Pagination block of the repository's sample listing page
(`tests/test_main.py`, `SAMPLE_PAGE_HTML`). -/
def sampleNav : Node :=
  .elem "nav" ["pagination"]
    [.elem "span" ["page-numbers", "current"] [.text "1"],
     .elem "a" ["page-numbers"] [.text "2"],
     .elem "a" ["page-numbers"] [.text "3"],
     .elem "span" ["page-numbers", "dots"] [.text "…"],
     .elem "a" ["page-numbers"] [.text "5"],
     .elem "a" ["next", "page-numbers"] [.text ">>"]]

/-- Document wrapping `sampleNav` the way the sample page does. -/
def sampleDoc : Node :=
  .elem "[document]" [] [.elem "html" [] [.elem "body" [] [sampleNav]]]

/-- First-occurrence deduplication by a string key with an explicit
seen-set, the shape of the `seen_urls` loops in `scrape_tag`
(`src/main.py:195-201`) and `generate_combined_feed`
(`src/main.py:274-279`). The Python `set` is modelled as a list used only
through membership. -/
def dedupByKeyGo {α : Type} (key : α → String) (seen : List String) : List α → List α
  | [] => []
  | a :: rest =>
    if key a ∈ seen then dedupByKeyGo key seen rest
    else a :: dedupByKeyGo key (key a :: seen) rest

/-- First-occurrence deduplication by key, starting from an empty seen-set. -/
def dedupByKey {α : Type} (key : α → String) (l : List α) : List α :=
  dedupByKeyGo key [] l

/-- Deduplication step of `scrape_tag`: articles deduplicated by `url`,
first occurrence kept. -/
def dedup_articles (l : List Article) : List Article :=
  dedupByKey (fun a => a.url) l

/-- Python falsiness of a fetch result (`str | None`): `None` and the empty
string are falsy, reflecting `if not first_page_html` and `if html` in
`scrape_tag`. -/
def fetchTruthy : Option String → Bool
  | none => false
  | some s => s ≠ ""

/-- Embedding of `scrape_tag` (`src/main.py:170-203`). The BeautifulSoup
string-to-tree parse is an external boundary, so the two page analyses are
parameters: `parseArticles` stands for `parse_articles_from_html` and
`totalPages` for `get_total_pages_from_html`, both composed with the HTML
parser. `fetch` maps a page number to the result of `fetch_page` for that
page's URL (page 1 is the tag's base listing URL, page `p ≥ 2` is
`…page/{p}`); `fetch_page` never raises, it returns the body on success and
`None` on any HTTP or transport failure.

The returned pair is the deduplicated article list together with the trace
of page numbers actually fetched, in request order: `asyncio.gather`
preserves argument order, and the accumulation loop reads the gathered
results in that order, so completion order cannot reorder articles. -/
def scrape_tag (parseArticles : String → List Article) (totalPages : String → Nat)
    (fetch : Nat → Option String) (max_pages : Nat) : List Article × List Nat :=
  let first_page_html := fetch 1
  if !fetchTruthy first_page_html then ([], [1])
  else
    let html1 := first_page_html.getD ""
    let firstArticles := parseArticles html1
    let total_pages := totalPages html1
    let pages_to_fetch := min total_pages max_pages
    let laterPages := if pages_to_fetch > 1 then List.range' 2 (pages_to_fetch - 1) else []
    let results := laterPages.map fetch
    let all_articles := results.foldl
      (fun acc r => if fetchTruthy r then acc ++ parseArticles (r.getD "") else acc)
      firstArticles
    (dedup_articles all_articles, 1 :: laterPages)

/-- CPython `dict` assignment on an association list in insertion order:
re-assigning an existing key keeps its position and overwrites its value,
a new key is appended. -/
def pyDictUpsert {α : Type} (m : List (String × α)) (k : String) (v : α) :
    List (String × α) :=
  if m.any (fun p => p.1 = k) then m.map (fun p => if p.1 = k then (k, v) else p)
  else m ++ [(k, v)]

/-- CPython `dict(pairs)`: fold the pairs into an insertion-ordered map. -/
def pyDict {α : Type} (l : List (String × α)) : List (String × α) :=
  l.foldl (fun m p => pyDictUpsert m p.1 p.2) []

/-- Embedding of `scrape_all_tags` (`src/main.py:206-217`): run the tag
scraper on every requested tag and assemble
`dict(zip(tags, results, strict=True))`. `scrape` maps a tag to the article
list its `scrape_tag` call returns; `asyncio.gather` aligns results with
tags positionally, so `zip` is the identity pairing and `strict=True` never
fires. -/
def scrape_all_tags (scrape : String → List Article) (tags : List String) :
    List (String × List Article) :=
  pyDict (tags.map (fun t => (t, scrape t)))

/-- One RSS `<item>` as filled in by the feed loops: id, title, link,
the optional published/updated timestamp (set to `article.published` when
that is not `None`, omitted otherwise — a `datetime` is always truthy in
Python), and the description. -/
structure Entry where
  id : String
  title : String
  link : String
  published : Option PyDateTime
  description : String
deriving DecidableEq, Repr

/-- Description assembled for an article: `[category]` when the category is
non-empty, `Por a1, a2, …` when the author list is non-empty, joined by
`" - "`; when both parts are missing the title is used instead. -/
def articleDescription (a : Article) : String :=
  let parts := (if a.category ≠ "" then ["[" ++ a.category ++ "]"] else [])
    ++ (if a.authors ≠ [] then ["Por " ++ String.intercalate ", " a.authors] else [])
  if parts = [] then a.title else String.intercalate " - " parts

/-- Entry built for one article by `generate_feed_for_tag`
(`src/main.py:233-248`). -/
def mkEntry (a : Article) : Entry :=
  { id := a.url, title := a.title, link := a.url, published := a.published,
    description := articleDescription a }

/-- Entry built for one `(tag, article)` pair by `generate_combined_feed`
(`src/main.py:281-296`): same fields, with the title prefixed by the
upper-cased tag in square brackets. -/
def mkCombinedEntry (p : String × Article) : Entry :=
  { id := p.2.url, title := "[" ++ pyUpper p.1 ++ "] " ++ p.2.title, link := p.2.url,
    published := p.2.published, description := articleDescription p.2 }

/-- Accumulation of `fg.add_entry()` calls over a sequence of already-built
entries: feedgen inserts each new entry at the front of its entry list (its
`order` parameter defaults to `'prepend'`), and `rss_file` then serialises
the list front to back. -/
def feedgenAddAll (entries : List Entry) : List Entry :=
  entries.foldl (fun acc e => e :: acc) []

/-- Python `os.path.join(dir, name)` for the shapes the program uses. -/
def pyOsPathJoin (dir name : String) : String :=
  if name.startsWith "/" then name
  else if dir = "" then name
  else if dir.endsWith "/" then dir ++ name
  else dir ++ "/" ++ name

/-- Emitted `<item>` sequence of the per-tag feed, in document order: the
loop iterates `reversed(articles)` and each `add_entry` prepends. -/
def tagFeedEntries (articles : List Article) : List Entry :=
  feedgenAddAll (articles.reverse.map mkEntry)

/-- Embedding of `generate_feed_for_tag` (`src/main.py:220-253`): returns
the output path `<output_dir>/<tag>.xml` (the function's return value) paired
with the emitted entry sequence, for any input list including the empty one.
Constant channel metadata (feed id, author, language, build date, …) is
irrelevant to the claims and omitted. -/
def generate_feed_for_tag (tag : String) (articles : List Article) (output_dir : String) :
    String × List Entry :=
  (pyOsPathJoin output_dir (tag ++ ".xml"), tagFeedEntries articles)

/-- Flattening loop of `generate_combined_feed`: all `(tag, article)` pairs
in map-iteration order, then intra-list order. -/
def flattenTagArticles (m : List (String × List Article)) : List (String × Article) :=
  (m.map (fun p => p.2.map (fun a => (p.1, a)))).flatten

/-- Globally deduplicated `(tag, article)` sequence of the combined feed:
first occurrence of each article url wins. -/
def combinedUnique (m : List (String × List Article)) : List (String × Article) :=
  dedupByKey (fun p => p.2.url) (flattenTagArticles m)

/-- Emitted `<item>` sequence of the combined feed: the loop iterates
`reversed(unique_articles)` and each `add_entry` prepends. -/
def combinedFeedEntries (m : List (String × List Article)) : List Entry :=
  feedgenAddAll ((combinedUnique m).reverse.map mkCombinedEntry)

/-- Embedding of `generate_combined_feed` (`src/main.py:256-301`): returns
the output path `<output_dir>/<filename>` paired with the emitted entry
sequence. The `filename` parameter defaults to `"feed.xml"` in the source;
callers here pass it explicitly. -/
def generate_combined_feed (m : List (String × List Article)) (output_dir : String)
    (filename : String) : String × List Entry :=
  (pyOsPathJoin output_dir filename, combinedFeedEntries m)

/-- Feed files written by `async_main` (`src/main.py:318-337`) once the
scrape result map is in hand, in write order: one per-tag file for each tag
whose article list is non-empty (`if articles:` — an empty list is skipped
with a warning, no file is written for it), then the combined feed provided
at least one tag has articles (`if any(tag_articles.values())`). -/
def async_main_files (tag_articles : List (String × List Article)) (output_dir : String) :
    List String :=
  (tag_articles.filter (fun p => p.2 ≠ [])).map
      (fun p => (generate_feed_for_tag p.1 p.2 output_dir).1)
    ++ (if tag_articles.any (fun p => p.2 ≠ []) then
          [(generate_combined_feed tag_articles output_dir "feed.xml").1]
        else [])

/-- Replace a Python-falsy fetch body (`None` or the empty string) by an
actual failure (`None`), leaving truthy bodies untouched. `scrape_tag` is
insensitive to this replacement, which is what "an empty body is treated
exactly like a failed fetch" means. -/
def normalizeBody (r : Option String) : Option String :=
  if fetchTruthy r then r else none

/-- Pointwise lift of `normalizeBody` to a fetch oracle. -/
def normalizeFetch (fetch : Nat → Option String) : Nat → Option String :=
  fun p => normalizeBody (fetch p)

/-- Concrete article (first of the two used by the ordering test in
`tests/test_feed_ordering.py`). -/
def artNewest : Article :=
  { title := "Article from Jan 15 (newest)", url := "https://www.conjur.com.br/article-3",
    authors := ["Author 3"], category := "TRIBUTOS" }

/-- Concrete article (second of the two used by the ordering test). -/
def artOldest : Article :=
  { title := "Article from Jan 5 (oldest)", url := "https://www.conjur.com.br/article-1",
    authors := ["Author 1"], category := "TRIBUTOS" }

/-- Article listed under the first tag of the duplicate-url test map
(`tests/test_main.py`, `test_combined_feed_removes_duplicates`). -/
def sharedItcmd : Article :=
  { title := "Shared", url := "https://www.conjur.com.br/shared",
    authors := ["Author"], category := "TRIBUTOS" }

/-- Article with the same url listed under the second tag of the
duplicate-url test map. -/
def sharedStf : Article :=
  { title := "Shared", url := "https://www.conjur.com.br/shared",
    authors := ["Author"], category := "STF" }

/-- Two-tag map sharing one article url across tags. -/
def sharedMap : List (String × List Article) :=
  [("itcmd", [sharedItcmd]), ("stf", [sharedStf])]

/-- Pagination block whose only page-number label parses to the integer 0. -/
def zeroNav : Node :=
  .elem "nav" ["pagination"] [.elem "a" ["page-numbers"] [.text "0"]]

/-- Document containing `zeroNav`. -/
def zeroDoc : Node :=
  .elem "[document]" [] [.elem "html" [] [.elem "body" [] [zeroNav]]]

/-- Folding list-cons over a list prepends its reverse to the accumulator. -/
theorem foldl_cons_eq_reverse_append {α : Type} (xs : List α) :
    ∀ acc : List α, xs.foldl (fun acc e => e :: acc) acc = xs.reverse ++ acc := by
  induction xs with
  | nil => intro acc; simp
  | cons x xs ih => intro acc; simp [ih]

/-- The feedgen entry list after a sequence of prepends is the reverse of
the add order; prepending while iterating the reversed input therefore
emits the entries in the original input order. -/
theorem feedgenAddAll_eq_reverse (entries : List Entry) :
    feedgenAddAll entries = entries.reverse := by
  simp [feedgenAddAll, foldl_cons_eq_reverse_append]

/-- Emitted per-tag entries are the input articles, mapped, in input order. -/
theorem tagFeedEntries_eq_map (articles : List Article) :
    tagFeedEntries articles = articles.map mkEntry := by
  simp [tagFeedEntries, feedgenAddAll_eq_reverse]

/-- Emitted combined entries are the deduplicated pair sequence, mapped, in
its own order. -/
theorem combinedFeedEntries_eq_map (m : List (String × List Article)) :
    combinedFeedEntries m = (combinedUnique m).map mkCombinedEntry := by
  simp [combinedFeedEntries, feedgenAddAll_eq_reverse]

/-- Deduplication yields a sublist: survivors come from the input and keep
their relative order. -/
theorem dedupByKeyGo_sublist {α : Type} (key : α → String) :
    ∀ (l : List α) (seen : List String), (dedupByKeyGo key seen l).Sublist l := by
  intro l
  induction l with
  | nil => intro seen; simp [dedupByKeyGo]
  | cons a rest ih =>
    intro seen
    simp only [dedupByKeyGo]
    split
    · exact (ih seen).cons a
    · exact (ih (key a :: seen)).cons₂ a

/-- Survivors of deduplication with key value `u`: none when `u` is already
seen, otherwise exactly the first input element keyed `u`. -/
theorem dedupByKeyGo_filter {α : Type} (key : α → String) (u : String) :
    ∀ (l : List α) (seen : List String),
      (dedupByKeyGo key seen l).filter (fun a => key a = u)
        = if u ∈ seen then [] else (l.filter (fun a => key a = u)).take 1 := by
  intro l
  induction l with
  | nil => intro seen; simp [dedupByKeyGo]
  | cons a rest ih =>
    intro seen
    simp only [dedupByKeyGo]
    by_cases hmem : key a ∈ seen
    · rw [if_pos hmem, ih seen]
      by_cases hu : u ∈ seen
      · simp [hu]
      · have hne : ¬(key a = u) := fun h => hu (h ▸ hmem)
        simp [hu, List.filter_cons, hne]
    · rw [if_neg hmem]
      by_cases hau : key a = u
      · have hu : u ∉ seen := hau ▸ hmem
        rw [List.filter_cons, if_pos (by simp [hau]), ih (key a :: seen),
          if_pos (by simp [hau]), if_neg hu, List.filter_cons, if_pos (by simp [hau])]
        simp
      · rw [List.filter_cons, if_neg (by simp [hau]), ih (key a :: seen)]
        by_cases hu : u ∈ seen
        · simp [hu, hau]
        · have : u ∉ key a :: seen := by
            simp only [List.mem_cons, not_or]
            exact ⟨fun h => hau h.symm, hu⟩
          simp [this, hu, List.filter_cons, hau]

/-- Every deduplication survivor has a key outside the initial seen-set. -/
theorem dedupByKeyGo_key_not_seen {α : Type} (key : α → String) :
    ∀ (l : List α) (seen : List String) (a : α),
      a ∈ dedupByKeyGo key seen l → key a ∉ seen := by
  intro l
  induction l with
  | nil => intro seen a h; simp [dedupByKeyGo] at h
  | cons b rest ih =>
    intro seen a h
    simp only [dedupByKeyGo] at h
    by_cases hmem : key b ∈ seen
    · rw [if_pos hmem] at h
      exact ih seen a h
    · rw [if_neg hmem] at h
      rcases List.mem_cons.mp h with h | h
      · exact h ▸ hmem
      · intro hs
        exact ih (key b :: seen) a h (List.mem_cons_of_mem _ hs)

/-- Deduplication survivors have pairwise distinct keys. -/
theorem dedupByKeyGo_keys_nodup {α : Type} (key : α → String) :
    ∀ (l : List α) (seen : List String), ((dedupByKeyGo key seen l).map key).Nodup := by
  intro l
  induction l with
  | nil => intro seen; simp [dedupByKeyGo]
  | cons a rest ih =>
    intro seen
    simp only [dedupByKeyGo]
    split
    · exact ih seen
    · simp only [List.map_cons, List.nodup_cons]
      refine ⟨fun hmem => ?_, ih (key a :: seen)⟩
      rcases List.mem_map.mp hmem with ⟨b, hb, hkey⟩
      exact dedupByKeyGo_key_not_seen key rest (key a :: seen) b hb
        (hkey ▸ List.mem_cons_self _ _)

/-- Every input element whose key is not yet seen is represented among the
survivors by an element with the same key. -/
theorem dedupByKeyGo_mem_key {α : Type} (key : α → String) :
    ∀ (l : List α) (seen : List String) (a : α), a ∈ l → key a ∉ seen →
      ∃ b, b ∈ dedupByKeyGo key seen l ∧ key b = key a := by
  intro l
  induction l with
  | nil => intro seen a h; simp at h
  | cons c rest ih =>
    intro seen a h hseen
    simp only [dedupByKeyGo]
    by_cases hmem : key c ∈ seen
    · rw [if_pos hmem]
      rcases List.mem_cons.mp h with h | h
      · exact absurd (h ▸ hseen) (by simp [hmem])
      · exact ih seen a h hseen
    · rw [if_neg hmem]
      by_cases hkey : key a = key c
      · exact ⟨c, List.mem_cons_self _ _, hkey.symm⟩
      · rcases List.mem_cons.mp h with h | h
        · exact absurd (congrArg key h) hkey
        · rcases ih (key c :: seen) a h (by simp [hseen, hkey]) with ⟨b, hb, hkb⟩
          exact ⟨b, List.mem_cons_of_mem _ hb, hkb⟩

/-- Deduplication is insensitive to how the seen-set is represented: only
membership matters (the Python `set` is used solely through `in`/`add`). -/
theorem dedupByKeyGo_seen_congr {α : Type} (key : α → String) :
    ∀ (l : List α) (s1 s2 : List String), (∀ x, x ∈ s1 ↔ x ∈ s2) →
      dedupByKeyGo key s1 l = dedupByKeyGo key s2 l := by
  intro l
  induction l with
  | nil => intro s1 s2 _; rfl
  | cons a rest ih =>
    intro s1 s2 hiff
    simp only [dedupByKeyGo]
    by_cases hmem : key a ∈ s1
    · rw [if_pos hmem, if_pos ((hiff (key a)).mp hmem), ih s1 s2 hiff]
    · rw [if_neg hmem, if_neg (fun h => hmem ((hiff (key a)).mpr h))]
      rw [ih (key a :: s1) (key a :: s2) (by intro x; simp [hiff x])]

/-- Re-assigning a key that is already present with the value it already
maps to leaves the dictionary unchanged. -/
theorem pyDictUpsert_self {α : Type} (f : String → α) (m : List (String × α)) (t : String)
    (hinv : ∀ p ∈ m, p.2 = f p.1) (hmem : m.any (fun p => p.1 = t) = true) :
    pyDictUpsert m t (f t) = m := by
  simp only [pyDictUpsert, if_pos hmem]
  have hid : ∀ p ∈ m, (if p.1 = t then (t, f t) else p) = p := by
    intro p hp
    by_cases hpt : p.1 = t
    · rw [if_pos hpt]
      have hv : p.2 = f t := by rw [hinv p hp, hpt]
      exact Prod.ext hpt.symm hv.symm
    · rw [if_neg hpt]
  rw [List.map_congr_left hid]
  simp

/-- With every pair's value determined by its key, building the dictionary
keeps the first occurrence of each key in order: later duplicates overwrite
with an identical value, which is invisible. -/
theorem pyDict_go {α : Type} (f : String → α) :
    ∀ (ts : List String) (acc : List (String × α)), (∀ p ∈ acc, p.2 = f p.1) →
      List.foldl (fun m p => pyDictUpsert m p.1 p.2) acc (ts.map fun t => (t, f t))
        = acc ++ (dedupByKeyGo (fun t => t) (acc.map Prod.fst) ts).map (fun t => (t, f t)) := by
  intro ts
  induction ts with
  | nil => intro acc _; simp [dedupByKeyGo]
  | cons t ts ih =>
    intro acc hinv
    simp only [List.map_cons, List.foldl_cons, dedupByKeyGo]
    by_cases hmem : acc.any (fun p => p.1 = t) = true
    · have hseen : t ∈ acc.map Prod.fst := by
        rcases List.any_eq_true.mp hmem with ⟨p, hp, hpt⟩
        exact List.mem_map.mpr ⟨p, hp, by exact of_decide_eq_true hpt⟩
      rw [pyDictUpsert_self f acc t hinv hmem, ih acc hinv, if_pos hseen]
    · have hseen : t ∉ acc.map Prod.fst := by
        intro hs
        rcases List.mem_map.mp hs with ⟨p, hp, hpt⟩
        exact hmem (List.any_eq_true.mpr ⟨p, hp, by simp [hpt]⟩)
      have hupsert : pyDictUpsert acc t (f t) = acc ++ [(t, f t)] := by
        simp only [pyDictUpsert]
        rw [if_neg (by simp [hmem])]
      rw [hupsert, if_neg hseen,
        ih (acc ++ [(t, f t)]) (by
          intro p hp
          rcases List.mem_append.mp hp with hp | hp
          · exact hinv p hp
          · simp at hp
            simp [hp]),
        dedupByKeyGo_seen_congr (fun t => t) ts ((acc ++ [(t, f t)]).map Prod.fst)
          (t :: acc.map Prod.fst) (by intro x; simp; tauto)]
      simp

/-- The result map of `scrape_all_tags` is the first-occurrence
deduplication of the tag list, each tag paired with its scrape result. -/
theorem scrape_all_tags_eq (scrape : String → List Article) (tags : List String) :
    scrape_all_tags scrape tags
      = (dedupByKey (fun t => t) tags).map (fun t => (t, scrape t)) := by
  have h := pyDict_go scrape tags [] (by simp)
  simpa [scrape_all_tags, pyDict, dedupByKey] using h

/-- Looking a key up in an association list whose pairs are generated from
the key finds the generated value. -/
theorem lookup_map_self {α : Type} (f : String → α) :
    ∀ (l : List String) (t : String), t ∈ l →
      List.lookup t (l.map fun s => (s, f s)) = some (f t) := by
  intro l
  induction l with
  | nil => intro t h; simp at h
  | cons s rest ih =>
    intro t h
    by_cases hts : t = s
    · simp [List.lookup, hts]
    · rcases List.mem_cons.mp h with h | h
      · exact absurd h hts
      · have hbeq : (t == s) = false := beq_eq_false_iff_ne.mpr hts
        simp [List.lookup, hbeq, ih t h]

/-- One fold step of the page-number maximum, as a plain maximum. -/
theorem page_max_step (a b : Int) : (if b > a then b else a) = max a b := by
  by_cases h : a < b
  · rw [if_pos h, max_eq_right h.le]
  · rw [if_neg h, max_eq_left (not_lt.mp h)]

/-- The page-number fold of `get_total_pages_from_html` computes the maximum
of the accumulator and all labels that parse. -/
theorem foldl_page_max (links : List Node) :
    ∀ mp : Int,
      links.foldl
        (fun max_page l =>
          match pyInt (nodeTextStrip l) with
          | some num => if num > max_page then num else max_page
          | none => max_page) mp
        = (links.filterMap (fun l => pyInt (nodeTextStrip l))).foldl max mp := by
  induction links with
  | nil => intro mp; rfl
  | cons l ls ih =>
    intro mp
    rw [List.foldl_cons, List.filterMap_cons]
    cases hp : pyInt (nodeTextStrip l) with
    | none => simp only [hp]; exact ih mp
    | some num =>
      simp only [hp]
      rw [List.foldl_cons, page_max_step mp num]
      exact ih (max mp num)

/-- A max-fold never drops below its starting accumulator. -/
theorem le_foldl_max (l : List Int) : ∀ b : Int, b ≤ l.foldl max b := by
  induction l with
  | nil => intro b; exact le_refl b
  | cons x xs ih => intro b; exact le_trans (le_max_left b x) (ih (max b x))

/-- With no pattern match in the input, `parse_pt_date` returns `None`
without raising. -/
theorem parse_pt_date_no_match (s : String) (h : reSearchDate s.data = none) :
    parse_pt_date s = .ok none := by
  simp [parse_pt_date, h]

/-- With a pattern match whose lower-cased month name is outside the
lexicon, `parse_pt_date` returns `None` without raising. -/
theorem parse_pt_date_unknown_month (s : String) (g : DateGroups)
    (hg : reSearchDate s.data = some g)
    (hm : MONTHS_PT.lookup (pyLower (String.mk g.monthName)) = none) :
    parse_pt_date s = .ok none := by
  simp [parse_pt_date, hg, hm]

/-- Body normalization does not change Python truthiness. -/
theorem fetchTruthy_normalizeBody (r : Option String) :
    fetchTruthy (normalizeBody r) = fetchTruthy r := by
  by_cases h : fetchTruthy r
  · rw [normalizeBody, if_pos h]
  · rw [normalizeBody, if_neg h]
    rw [Bool.not_eq_true] at h
    rw [h]
    rfl

/-- The article-accumulation fold of `scrape_tag` is insensitive to
normalizing falsy bodies into failures. -/
theorem foldl_fetch_normalize (pa : String → List Article) :
    ∀ (pages : List Nat) (fetch : Nat → Option String) (acc : List Article),
      (pages.map (normalizeFetch fetch)).foldl
          (fun acc r => if fetchTruthy r then acc ++ pa (r.getD "") else acc) acc
        = (pages.map fetch).foldl
          (fun acc r => if fetchTruthy r then acc ++ pa (r.getD "") else acc) acc := by
  intro pages
  induction pages with
  | nil => intro fetch acc; rfl
  | cons p ps ih =>
    intro fetch acc
    simp only [List.map_cons, List.foldl_cons]
    have hstep :
        (if fetchTruthy (normalizeFetch fetch p) then
            acc ++ pa ((normalizeFetch fetch p).getD "") else acc)
          = (if fetchTruthy (fetch p) then acc ++ pa ((fetch p).getD "") else acc) := by
      by_cases h : fetchTruthy (fetch p)
      · rw [show normalizeFetch fetch p = fetch p from by
          rw [normalizeFetch, normalizeBody, if_pos h]]
      · rw [show normalizeFetch fetch p = none from by
          rw [normalizeFetch, normalizeBody, if_neg h]]
        rw [if_neg (by simp [fetchTruthy]), if_neg h]
    rw [hstep]
    exact ih fetch _

/-- C3: for every article sequence (in particular the concatenated sequence
a tag scrape produces), the deduplication step keeps, for each distinct url,
exactly the first-encountered article — regardless of other field
differences — discards all later articles with an equal url, and preserves
the relative order of the survivors (the output is a sublist of the input,
and for every url the survivors with that url are exactly the first input
article with that url). -/
theorem dedup_keeps_first_instance_per_url :
    ∀ l : List Article,
      (dedup_articles l).Sublist l ∧
      ∀ u : String, (dedup_articles l).filter (fun a => a.url = u)
        = (l.filter (fun a => a.url = u)).take 1 := by
  intro l
  constructor
  · exact dedupByKeyGo_sublist (fun a => a.url) l []
  · intro u
    have h := dedupByKeyGo_filter (fun a : Article => a.url) u l []
    simpa [dedup_articles, dedupByKey] using h

/-- C7: when the first-page fetch yields an absent result, the tag scraper
returns the empty article list immediately, and its fetch trace is exactly
`[1]`: no subsequent page is requested. (The embedding is a total function,
so no exception path exists on this branch.) -/
theorem scrape_tag_first_page_absent :
    ∀ (parseArticles : String → List Article) (totalPages : String → Nat)
      (fetch : Nat → Option String) (max_pages : Nat),
      fetch 1 = none →
      scrape_tag parseArticles totalPages fetch max_pages = ([], [1]) := by
  intro pa tp fetch mp h
  rw [scrape_tag]
  rw [show fetchTruthy (fetch 1) = false from by rw [h]; rfl]
  rfl

/-- C7 witness: a concrete run whose first-page fetch fails. -/
theorem scrape_tag_first_page_absent_witness :
    (fun _ : Nat => (none : Option String)) 1 = none ∧
    scrape_tag (fun _ => []) (fun _ => 1) (fun _ => none) 3 = ([], [1]) :=
  ⟨rfl, scrape_tag_first_page_absent (fun _ => []) (fun _ => 1) (fun _ => none) 3 rfl⟩

/-- C10: a successful fetch with an empty-string body is treated by the tag
scraper exactly like a failed fetch. First conjunct: an empty first-page
body short-circuits to the empty list with fetch trace `[1]`. Second
conjunct: replacing every falsy body (empty string) of the oracle by an
actual failure leaves the whole scrape result unchanged, so empty-bodied
subsequent pages contribute no articles. -/
theorem scrape_tag_empty_body_like_failure :
    (∀ (parseArticles : String → List Article) (totalPages : String → Nat)
        (fetch : Nat → Option String) (max_pages : Nat),
        fetch 1 = some "" →
        scrape_tag parseArticles totalPages fetch max_pages = ([], [1])) ∧
    (∀ (parseArticles : String → List Article) (totalPages : String → Nat)
        (fetch : Nat → Option String) (max_pages : Nat),
        scrape_tag parseArticles totalPages fetch max_pages
          = scrape_tag parseArticles totalPages (normalizeFetch fetch) max_pages) := by
  constructor
  · intro pa tp fetch mp h
    rw [scrape_tag]
    rw [show fetchTruthy (fetch 1) = false from by rw [h]; rfl]
    rfl
  · intro pa tp fetch mp
    by_cases h1 : fetchTruthy (fetch 1)
    · have hn1 : normalizeFetch fetch 1 = fetch 1 := by
        rw [normalizeFetch, normalizeBody, if_pos h1]
      rw [scrape_tag, scrape_tag, hn1, h1]
      simp only [Bool.not_true, Bool.false_eq_true, if_false]
      rw [foldl_fetch_normalize]
    · have hn1 : normalizeFetch fetch 1 = none := by
        rw [normalizeFetch, normalizeBody, if_neg h1]
      rw [Bool.not_eq_true] at h1
      rw [scrape_tag, scrape_tag, hn1, h1]
      rfl

/-- C10 witness: a concrete run whose first-page fetch succeeds with an
empty body. -/
theorem scrape_tag_empty_body_witness :
    (fun _ : Nat => (some "" : Option String)) 1 = some "" ∧
    scrape_tag (fun _ => []) (fun _ => 1) (fun _ => some "") 3 = ([], [1]) :=
  ⟨rfl, scrape_tag_empty_body_like_failure.1 (fun _ => []) (fun _ => 1) (fun _ => some "") 3 rfl⟩

/-- C4: the date parser maps `"2 de fevereiro de 2026 às 07:33"` to the UTC
timestamp 2026-02-02 07:33, maps `"invalid"` to `None`, and maps every
input whose (leftmost-)matched month name, lower-cased, is outside the
12-entry lexicon to `None`. -/
theorem parse_pt_date_spec :
    parse_pt_date "2 de fevereiro de 2026 às 07:33"
        = .ok (some ⟨2026, 2, 2, 7, 33, true⟩) ∧
    parse_pt_date "invalid" = .ok none ∧
    (∀ (s : String) (g : DateGroups), reSearchDate s.data = some g →
      MONTHS_PT.lookup (pyLower (String.mk g.monthName)) = none →
      parse_pt_date s = .ok none) := by
  refine ⟨by decide, by decide, ?_⟩
  intro s g hg hm
  exact parse_pt_date_unknown_month s g hg hm

/-- C4 witness: a concrete input with an unknown month name. -/
theorem parse_pt_date_spec_witness :
    reSearchDate "1 de invalidmonth de 2025 às 10:00".data
        = some ⟨"1".data, "invalidmonth".data, "2025".data, "10".data, "00".data⟩ ∧
    parse_pt_date "1 de invalidmonth de 2025 às 10:00" = .ok none :=
  ⟨by decide,
    parse_pt_date_spec.2.2 "1 de invalidmonth de 2025 às 10:00"
      ⟨"1".data, "invalidmonth".data, "2025".data, "10".data, "00".data⟩
      (by decide) (by decide)⟩

/-- C5 counterexample: the date parser is not exception-free on every input.
The input `"31 de fevereiro de 2026 às 07:33"` matches the pattern with a
known month, and the uncaught `datetime` construction raises `ValueError`
because February has no day 31. -/
theorem parse_pt_date_raises_on_invalid_day :
    parse_pt_date "31 de fevereiro de 2026 às 07:33"
      = .raised "day is out of range for month" := by
  decide

/-- C5 (amended): on any input with no structural match of the pattern, or
with an unrecognized month name, the date parser returns `None` rather than
raising; an input that matches with a known month can still raise, through
the unguarded `datetime` constructor, when a component is out of calendar
range. -/
theorem parse_pt_date_total_on_unmatched :
    ∀ s : String,
      (reSearchDate s.data = none → parse_pt_date s = .ok none) ∧
      (∀ g : DateGroups, reSearchDate s.data = some g →
        MONTHS_PT.lookup (pyLower (String.mk g.monthName)) = none →
        parse_pt_date s = .ok none) := by
  intro s
  exact ⟨parse_pt_date_no_match s,
    fun g hg hm => parse_pt_date_unknown_month s g hg hm⟩

/-- C5 witness: a concrete structurally unmatched input. -/
theorem parse_pt_date_total_witness :
    reSearchDate "invalid date".data = none ∧ parse_pt_date "invalid date" = .ok none :=
  ⟨by decide, (parse_pt_date_total_on_unmatched "invalid date").1 (by decide)⟩

/-- C1 counterexample: with two distinct articles, the emitted per-tag feed
entries appear in the input order, not its reverse (iterating
`reversed(articles)` while feedgen prepends each entry cancels out; the
repository's `tests/test_feed_ordering.py` asserts exactly this emitted
order). -/
theorem tag_feed_not_reversed :
    (generate_feed_for_tag "test-tag" [artNewest, artOldest] "public").2
        = [mkEntry artNewest, mkEntry artOldest] ∧
    (generate_feed_for_tag "test-tag" [artNewest, artOldest] "public").2
        ≠ [mkEntry artOldest, mkEntry artNewest] := by
  exact ⟨by decide, by decide⟩

/-- C1 (amended): the entries of the emitted per-tag feed appear in exactly
the input article list order, and the entries of the emitted combined feed
appear in exactly the order of the deduplicated `(tag, article)` sequence
(the loops iterate the reversed sequences, but each `add_entry` prepends,
so the document order equals the sequence order). -/
theorem feed_entries_in_input_order :
    ∀ (tag : String) (articles : List Article) (output_dir : String)
      (m : List (String × List Article)),
      (generate_feed_for_tag tag articles output_dir).2 = articles.map mkEntry ∧
      combinedFeedEntries m = (combinedUnique m).map mkCombinedEntry := by
  intro tag articles output_dir m
  exact ⟨tagFeedEntries_eq_map articles, combinedFeedEntries_eq_map m⟩

/-- C2 counterexample: a run whose only tag scraped zero articles writes no
file at all — in particular not `<output_dir>/<tag>.xml` — because
`async_main` calls the per-tag emitter only under `if articles:`. -/
theorem run_skips_empty_tag :
    async_main_files [("itcmd", [])] "public" = [] ∧
    pyOsPathJoin "public" ("itcmd" ++ ".xml") ∉ async_main_files [("itcmd", [])] "public" := by
  exact ⟨by decide, by decide⟩

/-- C2 (amended): the per-tag emitter itself, when invoked, produces one
feed document `<output_dir>/<tag>.xml` even for an empty article list (a
zero-item feed); but a run writes the per-tag file exactly for the tags
whose scraped list is non-empty, plus the combined `feed.xml` when at least
one tag has articles — a tag with an empty list is skipped, its file
absent. -/
theorem run_writes_files_for_nonempty_tags :
    ∀ (tag output_dir : String) (m : List (String × List Article)) (x : String),
      (generate_feed_for_tag tag [] output_dir).1
          = pyOsPathJoin output_dir (tag ++ ".xml") ∧
      (generate_feed_for_tag tag [] output_dir).2 = [] ∧
      (x ∈ async_main_files m output_dir ↔
        (∃ t arts, (t, arts) ∈ m ∧ arts ≠ [] ∧ x = pyOsPathJoin output_dir (t ++ ".xml")) ∨
        ((∃ p ∈ m, p.2 ≠ []) ∧ x = pyOsPathJoin output_dir "feed.xml")) := by
  intro tag output_dir m x
  refine ⟨rfl, rfl, ?_⟩
  rw [async_main_files, List.mem_append]
  constructor
  · intro h
    rcases h with h | h
    · left
      rcases List.mem_map.mp h with ⟨p, hp, hx⟩
      rw [List.mem_filter] at hp
      exact ⟨p.1, p.2, hp.1, by simpa using hp.2, hx.symm⟩
    · right
      by_cases hany : m.any (fun p => p.2 ≠ []) = true
      · rw [if_pos hany] at h
        simp only [List.mem_singleton] at h
        refine ⟨?_, h⟩
        rcases List.any_eq_true.mp hany with ⟨p, hp, hne⟩
        exact ⟨p, hp, by simpa using hne⟩
      · rw [if_neg hany] at h
        simp at h
  · intro h
    rcases h with ⟨t, arts, hm, hne, hx⟩ | ⟨⟨p, hp, hne⟩, hx⟩
    · left
      refine List.mem_map.mpr ⟨(t, arts), List.mem_filter.mpr ⟨hm, by simpa using hne⟩, hx.symm⟩
    · right
      rw [if_pos (List.any_eq_true.mpr ⟨p, hp, by simpa using hne⟩)]
      simp [hx, generate_combined_feed]

/-- C2 witness: the zero-entry document the per-tag emitter produces for an
empty list, and the files of a mixed run — present for the non-empty tag,
present for the combined feed. -/
theorem run_writes_files_witness :
    (generate_feed_for_tag "empty" [] "public").2 = [] ∧
    pyOsPathJoin "public" "feed.xml"
      ∈ async_main_files [("empty", []), ("stf", [sharedStf])] "public" :=
  ⟨(run_writes_files_for_nonempty_tags "empty" "public" [] "x").2.1, by
    have h := (run_writes_files_for_nonempty_tags "empty" "public"
      [("empty", []), ("stf", [sharedStf])] (pyOsPathJoin "public" "feed.xml")).2.2
    exact h.mpr (Or.inr ⟨⟨("stf", [sharedStf]), by decide, by decide⟩, rfl⟩)⟩

/-- C6 counterexample: a pagination block whose only page-number label
parses to the integer 0. The maximum integer parsed from the labels is 0,
yet the function returns 1 (its running maximum starts at 1 and is replaced
only by something larger), so the result is not "the maximum integer parsed
from the visible labels". -/
theorem total_pages_not_max_parsed :
    findPagination zeroDoc = some zeroNav ∧
    parsedPageNumbers zeroNav = [0] ∧
    get_total_pages_from_html zeroDoc = 1 ∧
    get_total_pages_from_html zeroDoc ≠ 0 := by
  exact ⟨rfl, by decide, by decide, by decide⟩

/-- C6 (amended): for every HTML document the pagination inspector returns
an integer ≥ 1; when no pagination navigation element is present it returns
1, and otherwise it returns the maximum of 1 and the integers parsed from
the visible labels of the page-number links excluding the "next" control
(labels that fail to parse are ignored) — in particular 1 when none parse
or when every parsed label is below 1. -/
theorem total_pages_ge_one_and_max :
    ∀ doc : Node,
      1 ≤ get_total_pages_from_html doc ∧
      (findPagination doc = none → get_total_pages_from_html doc = 1) ∧
      (∀ nav : Node, findPagination doc = some nav →
        get_total_pages_from_html doc = (parsedPageNumbers nav).foldl max 1) := by
  intro doc
  refine ⟨?_, ?_, ?_⟩
  · cases hf : findPagination doc with
    | none => simp [get_total_pages_from_html, hf]
    | some nav =>
      simp only [get_total_pages_from_html, hf]
      rw [foldl_page_max]
      exact le_foldl_max _ 1
  · intro h
    simp [get_total_pages_from_html, h]
  · intro nav h
    simp only [get_total_pages_from_html, h]
    rw [foldl_page_max]
    rfl

/-- C6 witness: the sample listing page's pagination (numbered links 2, 3, 5
and a "next" control) yields 5. -/
theorem total_pages_witness :
    findPagination sampleDoc = some sampleNav ∧
    get_total_pages_from_html sampleDoc = 5 :=
  ⟨rfl, by
    have h := (total_pages_ge_one_and_max sampleDoc).2.2 sampleNav rfl
    rw [h]
    decide⟩

/-- C8: in a tag-to-article-list map where two tags' lists share an article
url, the combined feed contains exactly one entry for that url, namely the
entry built from the first `(tag, article)` occurrence in map-iteration
order then intra-list order; and every combined-feed entry's title is the
upper-cased originating tag in square brackets, a space, and the article
title. -/
theorem combined_feed_dedup_and_titles :
    ∀ (m : List (String × List Article)) (u t1 t2 : String) (a1 a2 : Article),
      (t1, a1) ∈ flattenTagArticles m → (t2, a2) ∈ flattenTagArticles m →
      t1 ≠ t2 → a1.url = u → a2.url = u →
      ((combinedFeedEntries m).filter (fun e => e.id = u)
          = (((flattenTagArticles m).filter (fun p => p.2.url = u)).take 1).map
              mkCombinedEntry) ∧
      ((combinedFeedEntries m).filter (fun e => e.id = u)).length = 1 ∧
      (∀ e ∈ combinedFeedEntries m, ∃ t a, (t, a) ∈ flattenTagArticles m ∧
        e.title = "[" ++ pyUpper t ++ "] " ++ a.title) := by
  intro m u t1 t2 a1 a2 h1 h2 hne hu1 hu2
  have hmain : (combinedFeedEntries m).filter (fun e => e.id = u)
      = (((flattenTagArticles m).filter (fun p => p.2.url = u)).take 1).map
          mkCombinedEntry := by
    rw [combinedFeedEntries_eq_map, List.filter_map]
    have hpred : ((fun e : Entry => decide (e.id = u)) ∘ mkCombinedEntry)
        = fun p : String × Article => decide (p.2.url = u) := rfl
    rw [hpred]
    have hfilt := dedupByKeyGo_filter (fun p : String × Article => p.2.url) u
      (flattenTagArticles m) []
    rw [show combinedUnique m
        = dedupByKeyGo (fun p : String × Article => p.2.url) [] (flattenTagArticles m)
      from rfl]
    rw [hfilt]
    simp
  refine ⟨hmain, ?_, ?_⟩
  · have hmem : (t1, a1) ∈ (flattenTagArticles m).filter (fun p => p.2.url = u) :=
      List.mem_filter.mpr ⟨h1, by simp [hu1]⟩
    rcases List.exists_cons_of_ne_nil (List.ne_nil_of_mem hmem) with ⟨q, qs, hq⟩
    rw [hmain, hq]
    simp
  · intro e he
    rw [combinedFeedEntries_eq_map] at he
    rcases List.mem_map.mp he with ⟨q, hq, hqe⟩
    refine ⟨q.1, q.2, ?_, ?_⟩
    · exact (dedupByKeyGo_sublist (fun p : String × Article => p.2.url)
        (flattenTagArticles m) []).subset hq
    · rw [← hqe]
      rfl

/-- C8 witness: the two-tag map sharing one url yields exactly one combined
entry for that url. -/
theorem combined_feed_dedup_witness :
    ("itcmd", sharedItcmd) ∈ flattenTagArticles sharedMap ∧
    ((combinedFeedEntries sharedMap).filter
        (fun e => e.id = "https://www.conjur.com.br/shared")).length = 1 :=
  ⟨by decide,
    (combined_feed_dedup_and_titles sharedMap "https://www.conjur.com.br/shared"
      "itcmd" "stf" sharedItcmd sharedStf (by decide) (by decide) (by decide)
      (by decide) (by decide)).2.1⟩

/-- C9: for every non-empty tag sequence, the orchestrator's result map has
every input tag as a key (a tag with zero articles maps to the empty list
rather than being absent), its keys are pairwise distinct (exactly one
entry per tag), and it has no key outside the input tags. -/
theorem scrape_all_tags_one_entry_per_tag :
    ∀ (scrape : String → List Article) (tags : List String), tags ≠ [] →
      (∀ t ∈ tags, List.lookup t (scrape_all_tags scrape tags) = some (scrape t)) ∧
      ((scrape_all_tags scrape tags).map Prod.fst).Nodup ∧
      (∀ t, t ∈ (scrape_all_tags scrape tags).map Prod.fst ↔ t ∈ tags) := by
  intro scrape tags _
  have hkeys : (scrape_all_tags scrape tags).map Prod.fst
      = dedupByKeyGo (fun t => t) [] tags := by
    rw [scrape_all_tags_eq, List.map_map, dedupByKey]
    exact List.map_id _
  have hmem_dedup : ∀ t ∈ tags, t ∈ dedupByKeyGo (fun t => t) [] tags := by
    intro t ht
    rcases dedupByKeyGo_mem_key (fun t => t) tags [] t ht (by simp) with ⟨b, hb, hkb⟩
    exact hkb ▸ hb
  refine ⟨?_, ?_, ?_⟩
  · intro t ht
    rw [scrape_all_tags_eq]
    exact lookup_map_self scrape (dedupByKey (fun t => t) tags) t (hmem_dedup t ht)
  · rw [hkeys]
    have h := dedupByKeyGo_keys_nodup (fun t : String => t) tags []
    simpa using h
  · intro t
    rw [hkeys]
    constructor
    · intro h
      exact (dedupByKeyGo_sublist (fun t => t) tags []).subset h
    · exact hmem_dedup t

/-- C9 witness: a two-tag run where every tag scrapes zero articles still
maps each tag to the empty list. -/
theorem scrape_all_tags_witness :
    (["itcmd", "stf"] : List String) ≠ [] ∧
    List.lookup "itcmd" (scrape_all_tags (fun _ => []) ["itcmd", "stf"]) = some [] :=
  ⟨by decide,
    (scrape_all_tags_one_entry_per_tag (fun _ => []) ["itcmd", "stf"] (by decide)).1
      "itcmd" (by decide)⟩
